import Mathlib

/-!
Verification of the sandboxed task execution engine (`law/sandbox/base.py`).

The Python source is shallowly embedded: sandbox keys are lists of
characters, environments are ordered association lists, target structures
are a recursive tree type, and the proxy executor's `run` is a pure
function producing a trace of observable events together with a
success/failure result.  Definitions come first, theorems after.
-/

deriving instance DecidableEq for Except

namespace LawSandbox

/-! ## Sandbox keys (`Sandbox.check_key`, `Sandbox.split_key`, `Sandbox.join_key`) -/

/-- Characters that Python's `str.strip()` removes at both ends, i.e. the
Python whitespace set. -/
def pyIsSpace (c : Char) : Bool :=
  c = ' ' || c = '\t' || c = '\n' || c = '\r' || c = '\x0b' || c = '\x0c'

/-- Python `s.strip()`: remove leading and trailing whitespace. -/
def pyStrip (s : List Char) : List Char :=
  ((s.dropWhile pyIsSpace).reverse.dropWhile pyIsSpace).reverse

/-- `not p.strip()` in the source: the string is empty after stripping. -/
def isBlank (s : List Char) : Bool :=
  pyStrip s = []

/-- Split a character list at the first occurrence of the delimiter `"::"`,
returning the parts before and after it, or `none` when the delimiter does
not occur.  This is Python's `key.split("::", 1)` with maxsplit 1:
`some (a, b)` corresponds to the two-element part list `[a, b]`, `none` to
the one-element list `[key]`. -/
def splitColon : List Char → Option (List Char × List Char)
  | [] => none
  | [_] => none
  | c₁ :: c₂ :: rest =>
    if c₁ = ':' ∧ c₂ = ':' then
      some ([], rest)
    else
      match splitColon (c₂ :: rest) with
      | some (a, b) => some (c₁ :: a, b)
      | none => none

/-- Whether the list contains two adjacent colons, i.e. an occurrence of the
key delimiter `"::"`. -/
def hasColonPair : List Char → Bool
  | [] => false
  | [_] => false
  | c₁ :: c₂ :: rest => (c₁ = ':' && c₂ = ':') || hasColonPair (c₂ :: rest)

/-- The single error sort of key handling: the source raises `ValueError`
("invalid sandbox key ...") both for commas and for malformed splits. -/
inductive KeyError where
  | formatError
deriving DecidableEq, Repr

/-- `Sandbox.check_key(key, silent=False)`: raise when the key contains a
comma (commas separate multiple sandbox keys in `LAW_SANDBOX`). -/
def check_key (key : List Char) : Except KeyError Bool :=
  if ',' ∈ key then .error .formatError else .ok true

/-- `parts = str(key).split(cls.delimiter, 1)` in `Sandbox.split_key`. -/
def splitParts (key : List Char) : List (List Char) :=
  match splitColon key with
  | some (a, b) => [a, b]
  | none => [key]

/-- `Sandbox.split_key`: split on the first `"::"`; error unless this yields
exactly two parts, each with a non-whitespace character. -/
def split_key (key : List Char) : Except KeyError (List Char × List Char) :=
  match splitColon key with
  | none => .error .formatError
  | some (a, b) =>
    if isBlank a ∨ isBlank b then .error .formatError else .ok (a, b)

/-- `Sandbox.join_key(type, name)`: `str(_type) + "::" + str(name)`. -/
def join_key (t n : List Char) : List Char :=
  t ++ ':' :: ':' :: n

/-- The key validation performed by `Sandbox.new` before construction:
`check_key` followed by `split_key`. -/
def validate_key (key : List Char) : Except KeyError (List Char × List Char) :=
  match check_key key with
  | .error e => .error e
  | .ok _ => split_key key

/-! ## Environment cache (`Sandbox._envs` and the `Sandbox.env` property) -/

/-- An environment mapping: ordered list of variable/value pairs, the
embedding of the `OrderedDict` used for resolved environments. -/
abbrev EnvMap := List (String × String)

/-- The `(self.sandbox_type, self.env_cache_key)` pair indexing the
class-level dictionary `Sandbox._envs`. -/
abbrev EnvCacheKey := List Char × List Char

/-- The class-level cache `Sandbox._envs`: an insertion-ordered dictionary,
shared by every sandbox instance for the life of the process. -/
abbrev EnvCache := List (EnvCacheKey × EnvMap)

/-- Dictionary lookup in `Sandbox._envs` (`cache_key in self._envs`). -/
def lookupEnv (cache : EnvCache) (k : EnvCacheKey) : Option EnvMap :=
  match cache with
  | [] => none
  | (k', v) :: rest => if k' = k then some v else lookupEnv rest k

/-- The `Sandbox.env` property: look up `(sandbox_type, env_cache_key)` in
`_envs`; on a miss call `create_env()` and store the result, leaving the
cache untouched when `create_env` raises.  The resolver is modelled by the
outcome `create_env` would have on this call; the returned `Nat` counts how
often the resolver was invoked (0 on a hit, 1 on a miss). -/
def sandbox_env {ε : Type} (cache : EnvCache) (sandboxType envCacheKey : List Char)
    (create_env : Except ε EnvMap) : Except ε EnvMap × EnvCache × Nat :=
  let cacheKey := (sandboxType, envCacheKey)
  match lookupEnv cache cacheKey with
  | some v => (.ok v, cache, 0)
  | none =>
    match create_env with
    | .ok v => (.ok v, cache ++ [(cacheKey, v)], 1)
    | .error e => (.error e, cache, 1)

/-! ## Target structures and staging
(`create_staged_target_struct`, `create_staged_target`, and the lockstep
copy loops of `SandboxProxy.stagein` / `SandboxProxy.stageout`) -/

/-- A leaf file-like target: its (logical) path and the basename
`target.unique_basename` under which it is staged. -/
structure LeafData where
  path : String
  uniqueBasename : String
deriving DecidableEq, Repr

/-- A nested target structure: a leaf target, a `TargetCollection`, a dict
of sub-structures or a list of sub-structures. -/
inductive Struct where
  | leaf : LeafData → Struct
  | coll : List Struct → Struct
  | mapping : List (String × Struct) → Struct
  | seq : List Struct → Struct

mutual

/-- `law.util.flatten`: flatten dicts (over their values, in order) and
lists recursively; leaf targets and `TargetCollection`s are kept as single
items (a collection is not a plain list, so `flatten` does not enter it). -/
def flatten : Struct → List Struct
  | .leaf t => [.leaf t]
  | .coll ms => [.coll ms]
  | .mapping es => flattenEntries es
  | .seq xs => flattenList xs

/-- `flatten` over the items of a list. -/
def flattenList : List Struct → List Struct
  | [] => []
  | x :: xs => flatten x ++ flattenList xs

/-- `flatten` over the values of a dict, in insertion order. -/
def flattenEntries : List (String × Struct) → List Struct
  | [] => []
  | (_, x) :: es => flatten x ++ flattenEntries es

end

/-- The path used in the copy step for a flattened item (only leaf targets
reach the copy step). -/
def pathOf : Struct → String
  | .leaf t => t.path
  | _ => ""

/-- `collection._flat_target_list`, the flattened member list of a
`TargetCollection`; empty on anything else. -/
def collFlat : Struct → List Struct
  | .coll ms => flattenList ms
  | _ => []

mutual

/-- Weight of a structure: a strict bound on the number of iterations the
lockstep `while` loop can spend on it (every item popped costs one, and a
popped collection re-queues only its members). -/
def weight : Struct → Nat
  | .leaf _ => 1
  | .coll ms => 1 + weightList ms
  | .mapping es => 1 + weightEntries es
  | .seq xs => 1 + weightList xs

/-- Total weight of a list of structures. -/
def weightList : List Struct → Nat
  | [] => 0
  | x :: xs => weight x + weightList xs

/-- Total weight of the values of a dict. -/
def weightEntries : List (String × Struct) → Nat
  | [] => 0
  | (_, x) :: es => weight x + weightEntries es

end

/-- One `while flat_sandbox_inputs:` loop of `SandboxProxy.stagein` /
`SandboxProxy.stageout`, fuelled by an iteration budget: pop the first item
of both lists in lockstep; a `TargetCollection` splices its
`_flat_target_list` (and that of its staged counterpart) at the front of
the queues; anything else is copied as a single leaf.  The fuel is an upper
bound on loop iterations; `lockstep` passes the exact bound `weightList`,
which the theorems below show is never exceeded. -/
def lockstepFuel : Nat → List Struct → List Struct → List (Struct × Struct)
  | 0, _, _ => []
  | _ + 1, [], _ => []
  | _ + 1, _ :: _, [] => []
  | fuel + 1, .coll ms :: ss, t :: ts =>
    lockstepFuel fuel (flattenList ms ++ ss) (collFlat t ++ ts)
  | fuel + 1, s :: ss, t :: ts => (s, t) :: lockstepFuel fuel ss ts

/-- The pairs `(sandbox_target, staged_target)` actually copied by the
lockstep loop, in order. -/
def lockstep (xs ys : List Struct) : List (Struct × Struct) :=
  lockstepFuel (weightList xs) xs ys

/-- `create_staged_target(stage_dir, target)`: a local target for the same
data located at `stage_dir.child(target.unique_basename)`. -/
def create_staged_target (stageDir : String) (t : LeafData) : LeafData :=
  { path := stageDir ++ "/" ++ t.uniqueBasename, uniqueBasename := t.uniqueBasename }

mutual

/-- `create_staged_target_struct(stage_dir, struct)`: `map_struct` over the
structure, mapping every leaf through `create_staged_target` and rebuilding
every `TargetCollection` from its mapped members (the `map_collection`
custom mapping). -/
def create_staged_target_struct (stageDir : String) : Struct → Struct
  | .leaf t => .leaf (create_staged_target stageDir t)
  | .coll ms => .coll (stagedList stageDir ms)
  | .mapping es => .mapping (stagedEntries stageDir es)
  | .seq xs => .seq (stagedList stageDir xs)

/-- `create_staged_target_struct` over the items of a list. -/
def stagedList (stageDir : String) : List Struct → List Struct
  | [] => []
  | x :: xs => create_staged_target_struct stageDir x :: stagedList stageDir xs

/-- `create_staged_target_struct` over the values of a dict. -/
def stagedEntries (stageDir : String) : List (String × Struct) → List (String × Struct)
  | [] => []
  | (k, x) :: es => (k, create_staged_target_struct stageDir x) :: stagedEntries stageDir es

end

/-! ## The proxy executor (`SandboxProxy.run`) -/

/-- The observable events of one `SandboxProxy.run`:  hook invocations,
per-leaf stage-in/out copies, the "entering/leaving sandbox" banners of
`_run_context`, and the per-leaf stage-out warning. -/
inductive Event where
  | beforeRun
  | stageinCopy (src dst : String)
  | enterSandbox
  | leaveSandbox
  | stageoutCopy (src dst : String)
  | warn (stagedPath : String)
  | afterRun
deriving DecidableEq, Repr

/-- Whether an event is a stage-out warning (`logger.warning("could not
find output target at ...")`). -/
def isWarn : Event → Bool
  | .warn _ => true
  | _ => false

/-- `StageInfo(targets, stage_dir, staged_targets)`. -/
structure StageInfo where
  targets : Struct
  stageDir : String
  stagedTargets : Struct

/-- The stage-in copy loop of `SandboxProxy.stagein`: lockstep traversal of
the flattened masked inputs and their staged counterparts, one
`copy_to_local` per leaf. -/
def stagein_events (info : StageInfo) : List Event :=
  (lockstep (flatten info.targets) (flatten info.stagedTargets)).map
    fun p => .stageinCopy (pathOf p.1) (pathOf p.2)

/-- The stage-out copy loop of `SandboxProxy.stageout`: same lockstep
traversal in the reverse direction; a staged leaf that exists is copied
back via `copy_from_local`, a missing one is reported with
`logger.warning`.  `present` is the file-system state after the sandboxed
subprocess ran: whether a file exists at the given staged path. -/
def stageout_events (present : String → Bool) (info : StageInfo) : List Event :=
  (lockstep (flatten info.targets) (flatten info.stagedTargets)).map
    fun p =>
      if present (pathOf p.2) then .stageoutCopy (pathOf p.2) (pathOf p.1)
      else .warn (pathOf p.2)

/-- The exception raised by `SandboxProxy.run` when the sandboxed
subprocess exits non-zero ("sandbox ... failed with exit code ..."); it
carries the exit code. -/
structure SandboxRunFailure where
  exitCode : Int
deriving DecidableEq, Repr

/-- One `SandboxProxy.run` as seen from outside: the stage-in info and
prepared stage-out info (`None` when the config or the task mask disables
that direction, or the mask matches nothing), the subprocess exit code, and
the post-run file-system state. -/
structure RunConfig where
  stageinInfo : Option StageInfo
  stageoutInfo : Option StageInfo
  exitCode : Int
  present : String → Bool

/-- `SandboxProxy.run`: before_run hook; stage-in copies; enter banner;
subprocess; on a non-zero exit code the leave banner still prints (the
`finally` of `_run_context`) and the run raises with the exit code, never
reaching stage-out or the after_run hook; on exit code 0 the leave banner,
the stage-out copies (when prepared) and the after_run hook follow. -/
def proxy_run (cfg : RunConfig) : List Event × Except SandboxRunFailure Unit :=
  let preEvents :=
    Event.beforeRun ::
      ((cfg.stageinInfo.map stagein_events).getD [] ++ [Event.enterSandbox])
  if cfg.exitCode = 0 then
    (preEvents ++ [Event.leaveSandbox] ++
      (cfg.stageoutInfo.map (stageout_events cfg.present)).getD [] ++ [Event.afterRun],
      .ok ())
  else
    (preEvents ++ [Event.leaveSandbox], .error ⟨cfg.exitCode⟩)

/-! ## The task-facing controller (`SandboxTask._initialize_sandbox` and
the properties built on it) -/

/-- The `NO_STR` sentinel of `law.parameter` marking an unset string
parameter. -/
def NO_STR : List Char := "NO_STR".toList

/-- A constructed sandbox backend instance: its registered `sandbox_type`
tag and its `name`. -/
structure SandboxInst where
  sandboxType : List Char
  name : List Char
deriving DecidableEq, Repr

/-- The `Sandbox.key` property: `join_key(sandbox_type, name)`. -/
def sandbox_key (sb : SandboxInst) : List Char :=
  join_key sb.sandboxType sb.name

/-- Errors of `Sandbox.new`: a malformed key (`ValueError` from
`check_key`/`split_key`) or no registered subclass with the requested
`sandbox_type` tag. -/
inductive NewError where
  | formatError
  | unknownType
deriving DecidableEq, Repr

/-- `Sandbox.new(key)`: validate the key, split it into type and name, walk
the registered subclasses for one whose `sandbox_type` equals the type tag
and instantiate it.  The registry is the list of registered type tags. -/
def sandbox_new (registry : List (List Char)) (key : List Char) :
    Except NewError SandboxInst :=
  match check_key key with
  | .error _ => .error .formatError
  | .ok _ =>
    match split_key key with
    | .error _ => .error .formatError
    | .ok (t, n) => if t ∈ registry then .ok ⟨t, n⟩ else .error .unknownType

/-- `Sandbox.is_active()`: whether the instance's key is one of the
comma-separated entries of the ambient `LAW_SANDBOX` value. -/
def is_active (currentSandbox : List (List Char)) (sb : SandboxInst) : Bool :=
  sandbox_key sb ∈ currentSandbox

/-- A single glob component match in the manner of `fnmatch.fnmatch` as
used through `law.util.multi_match`: `*` matches any run of characters,
`?` any single character, anything else itself (the `[seq]` form is not
used by sandbox designations and is not modelled). -/
def globMatch : List Char → List Char → Bool
  | [], [] => true
  | [], _ :: _ => false
  | '*' :: ps, [] => globMatch ps []
  | '*' :: ps, c :: cs => globMatch ps (c :: cs) || globMatch ('*' :: ps) cs
  | '?' :: ps, _ :: cs => globMatch ps cs
  | _ :: _, [] => false
  | p :: ps, c :: cs => (p = c) && globMatch ps cs
termination_by ps s => ps.length + s.length

/-- `law.util.multi_match(name, patterns, mode=any)`. -/
def multi_match (name : List Char) (patterns : List (List Char)) : Bool :=
  patterns.any fun p => globMatch p name

/-- The ambient sandbox state read from the environment at process start:
`LAW_SANDBOX` split on commas and the `LAW_SANDBOX_SWITCHED` flag. -/
structure AmbientState where
  currentSandbox : List (List Char)
  sandboxSwitched : Bool

/-- The sandbox-relevant attributes of a `SandboxTask` instance: the value
of its `sandbox` parameter, whether the class-level `sandbox` attribute is
still a `luigi.Parameter` (not overridden by a plain value), the
`valid_sandboxes` patterns, `allow_empty_sandbox`, and the
`fallback_sandbox` hook (`none` models Python `None`). -/
structure TaskSandboxSpec where
  sandbox : List Char
  sandboxIsParameter : Bool
  validSandboxes : List (List Char)
  allowEmptySandbox : Bool
  fallbackSandbox : List Char → Option (List Char)

/-- The attributes `_initialize_sandbox` leaves on the task. -/
structure SandboxState where
  effectiveSandbox : List Char
  sandboxInst : Option SandboxInst
  sandboxProxy : Option Unit
deriving DecidableEq, Repr

/-- Errors of `_initialize_sandbox`: an empty designation on a task that
does not allow one, or a `Sandbox.new` failure. -/
inductive InitError where
  | missingSandbox
  | newError (e : NewError)
deriving DecidableEq, Repr

/-- The resolution of `_effective_sandbox` in `SandboxTask._initialize_sandbox`:
the head of the ambient `LAW_SANDBOX` when already switched into a sandbox
(no nesting); else, when the class-level `sandbox` attribute is a
`luigi.Parameter`, the parameter value when it matches `valid_sandboxes`
and the `fallback_sandbox` hook's result otherwise; else the hard-coded
attribute value. -/
def resolve_effective_sandbox (amb : AmbientState) (cfg : TaskSandboxSpec) :
    Option (List Char) :=
  if amb.sandboxSwitched then some (amb.currentSandbox.headD [])
  else if cfg.sandboxIsParameter then
    if multi_match cfg.sandbox cfg.validSandboxes then some cfg.sandbox
    else cfg.fallbackSandbox cfg.sandbox
  else some cfg.sandbox

/-- `SandboxTask._initialize_sandbox` (the body after the idempotence
guard): resolve the effective sandbox; reject an empty result (`None` or
`NO_STR`) unless `allow_empty_sandbox`; then create the `Sandbox`
instance and keep it together with a `SandboxProxy` only when it is not
already active. -/
def initialize_sandbox (amb : AmbientState) (cfg : TaskSandboxSpec)
    (registry : List (List Char)) : Except InitError SandboxState :=
  match resolve_effective_sandbox amb cfg with
  | none =>
    if cfg.allowEmptySandbox then .ok ⟨NO_STR, none, none⟩
    else .error .missingSandbox
  | some key =>
    if key = NO_STR then
      if cfg.allowEmptySandbox then .ok ⟨NO_STR, none, none⟩
      else .error .missingSandbox
    else
      match sandbox_new registry key with
      | .error e => .error (.newError e)
      | .ok sb =>
        if is_active amb.currentSandbox sb then .ok ⟨key, none, none⟩
        else .ok ⟨key, some sb, some ()⟩

/-- `SandboxTask.is_sandboxed()`:
`self.effective_sandbox == NO_STR or not self.sandbox_inst`. -/
def is_sandboxed (st : SandboxState) : Bool :=
  st.effectiveSandbox = NO_STR || st.sandboxInst.isNone

/-- The `SandboxTask.env` property:
`os.environ if self.is_sandboxed() else self.sandbox_inst.env`.
`instEnv` is the `Sandbox.env` cached-environment property of the held
instance; `ambientEnv` is `os.environ`. -/
def task_env (st : SandboxState) (ambientEnv : EnvMap)
    (instEnv : SandboxInst → EnvMap) : EnvMap :=
  if is_sandboxed st then ambientEnv
  else
    match st.sandboxInst with
    | some sb => instEnv sb
    | none => ambientEnv

/-! ## Theorems: key handling -/

theorem splitColon_append_colon (t n : List Char)
    (ht : hasColonPair t = false) (hlast : t.getLast? ≠ some ':') :
    splitColon (t ++ ':' :: ':' :: n) = some (t, n) := by
  induction t with
  | nil => simp [splitColon]
  | cons c t ih =>
    cases t with
    | nil =>
      have hc : ¬ c = ':' := by
        intro h
        exact hlast (by simp [h, List.getLast?])
      simp [splitColon, hc]
    | cons d t' =>
      rw [hasColonPair, Bool.or_eq_false_iff] at ht
      have hpair : ¬ (c = ':' ∧ d = ':') := by
        intro ⟨h₁, h₂⟩
        simp [h₁, h₂] at ht
      have ht' : hasColonPair (d :: t') = false := ht.2
      have hlast' : (d :: t').getLast? ≠ some ':' := by
        intro h
        apply hlast
        rw [List.getLast?_cons_cons] at *
        exact h
      have := ih ht' hlast'
      simp only [List.cons_append] at this ⊢
      rw [splitColon]
      simp [hpair, this]

theorem splitColon_eq_append (key a b : List Char)
    (h : splitColon key = some (a, b)) : key = a ++ ':' :: ':' :: b := by
  induction key generalizing a b with
  | nil => simp [splitColon] at h
  | cons c t ih =>
    cases t with
    | nil => simp [splitColon] at h
    | cons d t' =>
      rw [splitColon] at h
      by_cases hp : c = ':' ∧ d = ':'
      · simp [hp] at h
        obtain ⟨h₁, h₂⟩ := h
        simp [← h₁, ← h₂, hp.1, hp.2]
      · simp [hp] at h
        cases hres : splitColon (d :: t') with
        | none => simp [hres] at h
        | some p =>
          obtain ⟨a', b'⟩ := p
          simp [hres] at h
          obtain ⟨h₁, h₂⟩ := h
          have := ih a' b' hres
          simp [← h₁, ← h₂, this]

/-- C7: Key validation (the `check_key` + `split_key` sequence performed by
`Sandbox.new`) fails for every key containing a comma, and for every key
that does not split on the first `"::"` into exactly two parts each
containing a non-whitespace character. -/
theorem validate_key_fails_on_comma_or_bad_split (key : List Char) :
    (',' ∈ key → validate_key key = .error .formatError) ∧
    ((splitParts key).length ≠ 2 ∨ (splitParts key).any isBlank →
      validate_key key = .error .formatError) := by
  constructor
  · intro hc
    simp [validate_key, check_key, hc]
  · intro h
    unfold validate_key check_key
    by_cases hc : ',' ∈ key
    · simp [hc]
    · simp only [hc, if_false, if_neg]
      unfold split_key
      unfold splitParts at h
      cases hsc : splitColon key with
      | none => simp
      | some p =>
        obtain ⟨a, b⟩ := p
        simp [hsc] at h
        simp [hsc, h]

/-- Witness for C7: the comma key `"a,b"` and the undelimited key `"abc"`
are both rejected. -/
theorem validate_key_fails_on_comma_or_bad_split_witness :
    (',' ∈ "a,b".toList ∧ validate_key "a,b".toList = .error .formatError) ∧
    ((splitParts "abc".toList).length ≠ 2 ∧
      validate_key "abc".toList = .error .formatError) :=
  ⟨⟨by decide, (validate_key_fails_on_comma_or_bad_split "a,b".toList).1 (by decide)⟩,
    ⟨by decide,
      (validate_key_fails_on_comma_or_bad_split "abc".toList).2 (Or.inl (by decide))⟩⟩

/-- Counterexample to C8 as stated: `t = "a:"` and `n = "x"` are non-empty,
contain no `"::"` and no comma, yet `split_key (join_key t n)` returns
`("a", ":x")`, not `("a:", "x")` — the joined key `"a:::x"` splits at its
first colon pair, which starts inside `t`. -/
theorem split_join_roundtrip_fails :
    ("a:".toList ≠ [] ∧ "x".toList ≠ [] ∧
      hasColonPair "a:".toList = false ∧ hasColonPair "x".toList = false ∧
      ',' ∉ "a:".toList ∧ ',' ∉ "x".toList) ∧
    split_key (join_key "a:".toList "x".toList) = .ok ("a".toList, ":x".toList) ∧
    split_key (join_key "a:".toList "x".toList) ≠ .ok ("a:".toList, "x".toList) := by
  decide

/-- C8 (amended): for non-empty `t` and `n` that contain no `"::"` and no
comma, where additionally `t` and `n` each contain a non-whitespace
character and `t` does not end in `':'`,
`split_key (join_key t n) = .ok (t, n)`. -/
theorem split_join_roundtrip (t n : List Char)
    (htb : isBlank t = false) (hnb : isBlank n = false)
    (ht : hasColonPair t = false) (_hn : hasColonPair n = false)
    (_htc : ',' ∉ t) (_hnc : ',' ∉ n)
    (hlast : t.getLast? ≠ some ':') :
    split_key (join_key t n) = .ok (t, n) := by
  unfold split_key join_key
  rw [splitColon_append_colon t n ht hlast]
  simp [htb, hnb]

/-- Witness for C8 (amended): the valid pair `("docker", "img")` round-trips. -/
theorem split_join_roundtrip_witness :
    split_key (join_key "docker".toList "img".toList) =
      .ok ("docker".toList, "img".toList) :=
  split_join_roundtrip "docker".toList "img".toList (by decide) (by decide)
    (by decide) (by decide) (by decide) (by decide) (by decide)

/-! ## Theorems: environment cache -/

theorem lookupEnv_append_self (cache : EnvCache) (k : EnvCacheKey) (v : EnvMap)
    (h : lookupEnv cache k = none) : lookupEnv (cache ++ [(k, v)]) k = some v := by
  induction cache with
  | nil => simp [lookupEnv]
  | cons p rest ih =>
    obtain ⟨k', v'⟩ := p
    rw [lookupEnv] at h
    by_cases hk : k' = k
    · simp [hk] at h
    · rw [List.cons_append, lookupEnv]
      simp only [if_neg hk] at h ⊢
      exact ih h

/-- C1: on a cache miss for `(t, k)`, a first access resolves and stores the
environment (one resolver call); a second access with the same key returns
the identical cached value with no resolver call, whatever the resolver
would now do; and a failing resolution caches nothing, so a retry with the
same key invokes the resolver again. -/
theorem env_cache_get_or_create_once {ε : Type} (cache : EnvCache)
    (t k : List Char) (v : EnvMap) (e : ε)
    (hmiss : lookupEnv cache (t, k) = none) :
    (@sandbox_env ε cache t k (.ok v) = (.ok v, cache ++ [((t, k), v)], 1)) ∧
    (∀ r : Except ε EnvMap,
      sandbox_env (cache ++ [((t, k), v)]) t k r = (.ok v, cache ++ [((t, k), v)], 0)) ∧
    (sandbox_env cache t k (.error e) = (.error e, cache, 1) ∧
      @sandbox_env ε cache t k (.ok v) = (.ok v, cache ++ [((t, k), v)], 1)) := by
  refine ⟨?_, ?_, ?_, ?_⟩
  · simp [sandbox_env, hmiss]
  · intro r
    simp [sandbox_env, lookupEnv_append_self cache (t, k) v hmiss]
  · simp [sandbox_env, hmiss]
  · simp [sandbox_env, hmiss]

/-- Witness for C1: the empty cache misses `("docker", "img")`; resolving
with value `[("PATH", "/usr/bin")]` caches it and a second access hits. -/
theorem env_cache_get_or_create_once_witness :
    lookupEnv [] ("docker".toList, "img".toList) = none ∧
    sandbox_env ([] : EnvCache) "docker".toList "img".toList
        (Except.ok [("PATH", "/usr/bin")] : Except Unit EnvMap) =
      (.ok [("PATH", "/usr/bin")],
        [(("docker".toList, "img".toList), [("PATH", "/usr/bin")])], 1) ∧
    sandbox_env [(("docker".toList, "img".toList), [("PATH", "/usr/bin")])]
        "docker".toList "img".toList (Except.error () : Except Unit EnvMap) =
      (.ok [("PATH", "/usr/bin")],
        [(("docker".toList, "img".toList), [("PATH", "/usr/bin")])], 0) :=
  ⟨rfl,
    (env_cache_get_or_create_once ([] : EnvCache) "docker".toList "img".toList
      [("PATH", "/usr/bin")] () rfl).1,
    by
      have h := (env_cache_get_or_create_once ([] : EnvCache) "docker".toList
        "img".toList [("PATH", "/usr/bin")] () rfl).2.1 (.error ())
      simpa using h⟩

/-! ## Theorems: staging -/

/-- Counterexample to C4 as stated: two distinct leaf targets with the
same `unique_basename` stage without any error — `create_staged_target_struct`
is total, performs no collision check and raises no `NamingCollisionError`
(no such error exists in the source); both leaves are silently mapped to
the same staged path. -/
theorem staging_collision_not_detected :
    (Struct.leaf ⟨"/data/a/x.txt", "x.txt"⟩ ≠ Struct.leaf ⟨"/data/b/x.txt", "x.txt"⟩) ∧
    create_staged_target_struct "/stage"
        (.seq [.leaf ⟨"/data/a/x.txt", "x.txt"⟩, .leaf ⟨"/data/b/x.txt", "x.txt"⟩])
      = .seq [.leaf ⟨"/stage/x.txt", "x.txt"⟩, .leaf ⟨"/stage/x.txt", "x.txt"⟩] := by
  refine ⟨fun h => ?_, rfl⟩
  simp only [Struct.leaf.injEq, LeafData.mk.injEq] at h
  exact absurd h.1 (by decide)

/-- C4 (amended): staging never fails and performs no collision detection;
every leaf is staged at `stage_dir/<unique_basename>`, so two leaves whose
unique basenames differ receive distinct staged paths (collisions are
possible exactly when unique basenames coincide, and pass silently). -/
theorem staged_paths_distinct_for_distinct_basenames (stageDir : String)
    (a b : LeafData) (h : a.uniqueBasename ≠ b.uniqueBasename) :
    create_staged_target_struct stageDir (.seq [.leaf a, .leaf b]) =
      .seq [.leaf (create_staged_target stageDir a),
        .leaf (create_staged_target stageDir b)] ∧
    (create_staged_target stageDir a).path ≠ (create_staged_target stageDir b).path := by
  refine ⟨rfl, fun hp => h ?_⟩
  simp only [create_staged_target] at hp
  have hd := congrArg String.data hp
  simp only [String.data_append] at hd
  exact String.ext (List.append_cancel_left hd)

/-- Witness for C4 (amended): basenames `"x.txt"` and `"y.txt"` stage to
the distinct paths `"/stage/x.txt"` and `"/stage/y.txt"`. -/
theorem staged_paths_distinct_witness :
    ("x.txt" : String) ≠ "y.txt" ∧
    (create_staged_target "/stage" ⟨"/data/a/x.txt", "x.txt"⟩).path ≠
      (create_staged_target "/stage" ⟨"/data/b/y.txt", "y.txt"⟩).path :=
  ⟨by decide,
    (staged_paths_distinct_for_distinct_basenames "/stage"
      ⟨"/data/a/x.txt", "x.txt"⟩ ⟨"/data/b/y.txt", "y.txt"⟩ (by decide)).2⟩

/-- C5: the lockstep stage-in traversal splices flat-collection members
into the queue instead of copying the collection as one leaf: for a
mapping of 2 keys whose values are flat collections of 3 and 2 leaf
targets, the flattened structure has 2 items but exactly 5 leaf copy
operations are performed. -/
theorem lockstep_splices_flat_collections :
    (flatten (.mapping [
      ("a", .coll [.leaf ⟨"/in/a1", "a1"⟩, .leaf ⟨"/in/a2", "a2"⟩, .leaf ⟨"/in/a3", "a3"⟩]),
      ("b", .coll [.leaf ⟨"/in/b1", "b1"⟩, .leaf ⟨"/in/b2", "b2"⟩])])).length = 2 ∧
    (stagein_events ⟨
      .mapping [
        ("a", .coll [.leaf ⟨"/in/a1", "a1"⟩, .leaf ⟨"/in/a2", "a2"⟩, .leaf ⟨"/in/a3", "a3"⟩]),
        ("b", .coll [.leaf ⟨"/in/b1", "b1"⟩, .leaf ⟨"/in/b2", "b2"⟩])],
      "/stage",
      create_staged_target_struct "/stage" (.mapping [
        ("a", .coll [.leaf ⟨"/in/a1", "a1"⟩, .leaf ⟨"/in/a2", "a2"⟩, .leaf ⟨"/in/a3", "a3"⟩]),
        ("b", .coll [.leaf ⟨"/in/b1", "b1"⟩, .leaf ⟨"/in/b2", "b2"⟩])])⟩)
      = [.stageinCopy "/in/a1" "/stage/a1", .stageinCopy "/in/a2" "/stage/a2",
        .stageinCopy "/in/a3" "/stage/a3", .stageinCopy "/in/b1" "/stage/b1",
        .stageinCopy "/in/b2" "/stage/b2"] := by
  exact ⟨rfl, rfl⟩

/-! ## Theorems: the proxy executor run -/

theorem stagein_events_only_copies (i : StageInfo) (e : Event)
    (h : e ∈ stagein_events i) : ∃ s d, e = .stageinCopy s d := by
  unfold stagein_events at h
  rw [List.mem_map] at h
  obtain ⟨p, -, hp⟩ := h
  exact ⟨_, _, hp.symm⟩

theorem stagein_events_filter_warn (i : StageInfo) :
    (stagein_events i).filter isWarn = [] := by
  rw [List.filter_eq_nil_iff]
  intro e he
  obtain ⟨s, d, rfl⟩ := stagein_events_only_copies i e he
  simp [isWarn]

/-- C2: when the built command exits with a non-zero code, the run reports
the failure carrying exactly that exit code, and no stage-out copy is ever
performed. -/
theorem run_failure_carries_code_skips_stageout (cfg : RunConfig)
    (h : cfg.exitCode ≠ 0) :
    (proxy_run cfg).2 = .error ⟨cfg.exitCode⟩ ∧
    ∀ s d, Event.stageoutCopy s d ∉ (proxy_run cfg).1 := by
  refine ⟨by simp [proxy_run, h], fun s d hmem => ?_⟩
  cases hsi : cfg.stageinInfo with
  | none => simp [proxy_run, h, hsi] at hmem
  | some i => simp [proxy_run, h, hsi, stagein_events] at hmem

/-- Witness for C2: a run with exit code 17 and no staging configured
fails with code 17 and its trace holds no stage-out copy. -/
theorem run_failure_carries_code_witness :
    ((⟨none, none, 17, fun _ => true⟩ : RunConfig).exitCode ≠ 0) ∧
    (proxy_run ⟨none, none, 17, fun _ => true⟩).2 = .error ⟨17⟩ ∧
    Event.stageoutCopy "/so/a" "/out/a" ∉
      (proxy_run ⟨none, none, 17, fun _ => true⟩).1 :=
  ⟨by decide,
    (run_failure_carries_code_skips_stageout ⟨none, none, 17, fun _ => true⟩
      (by decide)).1,
    (run_failure_carries_code_skips_stageout ⟨none, none, 17, fun _ => true⟩
      (by decide)).2 "/so/a" "/out/a"⟩

/-- Counterexample to C3 as stated: a run that reaches `RUNNING` (the
"entering sandbox" banner is emitted) whose subprocess exits 17 raises
before the `after_run` hook — the hook is skipped on subprocess failure,
because the `raise` aborts `SandboxProxy.run` before the hook call. -/
theorem after_run_skipped_on_subprocess_failure :
    Event.enterSandbox ∈
      (proxy_run ⟨none, some ⟨.leaf ⟨"/o", "o"⟩, "/so", .leaf ⟨"/so/o", "o"⟩⟩, 17,
        fun _ => true⟩).1 ∧
    (proxy_run ⟨none, some ⟨.leaf ⟨"/o", "o"⟩, "/so", .leaf ⟨"/so/o", "o"⟩⟩, 17,
      fun _ => true⟩).2 = .error ⟨17⟩ ∧
    Event.afterRun ∉
      (proxy_run ⟨none, some ⟨.leaf ⟨"/o", "o"⟩, "/so", .leaf ⟨"/so/o", "o"⟩⟩, 17,
        fun _ => true⟩).1 := by
  refine ⟨by decide, rfl, by decide⟩

/-- C3 (amended): the `after_run` hook fires exactly when the whole run
succeeds, i.e. when the subprocess exits 0; it is skipped whenever the
subprocess itself fails. -/
theorem after_run_fires_iff_exit_zero (cfg : RunConfig) :
    Event.afterRun ∈ (proxy_run cfg).1 ↔ cfg.exitCode = 0 := by
  by_cases h : cfg.exitCode = 0
  · simp only [h, iff_true]
    simp [proxy_run, h]
  · simp only [h, iff_false]
    intro hmem
    cases hsi : cfg.stageinInfo with
    | none => simp [proxy_run, h, hsi] at hmem
    | some i => simp [proxy_run, h, hsi, stagein_events] at hmem

theorem lockstep_two_leaves (o₁ o₂ s₁ s₂ : LeafData) :
    lockstep [.leaf o₁, .leaf o₂] [.leaf s₁, .leaf s₂]
      = [(.leaf o₁, .leaf s₁), (.leaf o₂, .leaf s₂)] := rfl

/-- C6: with stage-out prepared for two declared output leaves of which
exactly one exists after the run, a successful subprocess lets the run
complete successfully, exactly one warning is recorded (for the absent
leaf), and the present leaf is copied back to its original location. -/
theorem stageout_missing_leaf_warns_and_completes (cfg : RunConfig)
    (info : StageInfo) (o₁ o₂ s₁ s₂ : LeafData)
    (hexit : cfg.exitCode = 0)
    (hso : cfg.stageoutInfo = some info)
    (hT : flatten info.targets = [.leaf o₁, .leaf o₂])
    (hS : flatten info.stagedTargets = [.leaf s₁, .leaf s₂])
    (h₁ : cfg.present s₁.path = true)
    (h₂ : cfg.present s₂.path = false) :
    (proxy_run cfg).2 = .ok () ∧
    ((proxy_run cfg).1.filter isWarn).length = 1 ∧
    Event.stageoutCopy s₁.path o₁.path ∈ (proxy_run cfg).1 := by
  have hso_ev : stageout_events cfg.present info
      = [.stageoutCopy s₁.path o₁.path, .warn s₂.path] := by
    unfold stageout_events
    rw [hT, hS, lockstep_two_leaves]
    simp [pathOf, h₁, h₂]
  refine ⟨by simp [proxy_run, hexit], ?_, ?_⟩
  · cases hsi : cfg.stageinInfo with
    | none =>
      simp [proxy_run, hexit, hsi, hso, hso_ev, isWarn]
    | some i =>
      simp [proxy_run, hexit, hsi, hso, hso_ev, List.filter_append,
        stagein_events_filter_warn, isWarn]
  · cases hsi : cfg.stageinInfo with
    | none => simp [proxy_run, hexit, hsi, hso, hso_ev]
    | some i => simp [proxy_run, hexit, hsi, hso, hso_ev]

/-- Witness for C6: two declared outputs staged under `"/so"`, only the
first produced; the run succeeds, warns once and copies the first back. -/
theorem stageout_missing_leaf_witness :
    (proxy_run ⟨none,
      some ⟨.seq [.leaf ⟨"/out/1", "1"⟩, .leaf ⟨"/out/2", "2"⟩], "/so",
        .seq [.leaf ⟨"/so/1", "1"⟩, .leaf ⟨"/so/2", "2"⟩]⟩,
      0, fun p => p = "/so/1"⟩).2 = .ok () ∧
    ((proxy_run ⟨none,
      some ⟨.seq [.leaf ⟨"/out/1", "1"⟩, .leaf ⟨"/out/2", "2"⟩], "/so",
        .seq [.leaf ⟨"/so/1", "1"⟩, .leaf ⟨"/so/2", "2"⟩]⟩,
      0, fun p => p = "/so/1"⟩).1.filter isWarn).length = 1 ∧
    Event.stageoutCopy "/so/1" "/out/1" ∈
      (proxy_run ⟨none,
        some ⟨.seq [.leaf ⟨"/out/1", "1"⟩, .leaf ⟨"/out/2", "2"⟩], "/so",
          .seq [.leaf ⟨"/so/1", "1"⟩, .leaf ⟨"/so/2", "2"⟩]⟩,
        0, fun p => p = "/so/1"⟩).1 :=
  stageout_missing_leaf_warns_and_completes
    ⟨none,
      some ⟨.seq [.leaf ⟨"/out/1", "1"⟩, .leaf ⟨"/out/2", "2"⟩], "/so",
        .seq [.leaf ⟨"/so/1", "1"⟩, .leaf ⟨"/so/2", "2"⟩]⟩,
      0, fun p => p = "/so/1"⟩
    ⟨.seq [.leaf ⟨"/out/1", "1"⟩, .leaf ⟨"/out/2", "2"⟩], "/so",
      .seq [.leaf ⟨"/so/1", "1"⟩, .leaf ⟨"/so/2", "2"⟩]⟩
    ⟨"/out/1", "1"⟩ ⟨"/out/2", "2"⟩ ⟨"/so/1", "1"⟩ ⟨"/so/2", "2"⟩
    rfl rfl rfl rfl (by decide) (by decide)

/-! ## Theorems: the task-facing controller -/

theorem split_key_ok_eq (key t n : List Char)
    (h : split_key key = .ok (t, n)) : key = join_key t n := by
  unfold split_key at h
  cases hsc : splitColon key with
  | none => rw [hsc] at h; exact absurd h (by simp)
  | some p =>
    obtain ⟨a, b⟩ := p
    rw [hsc] at h
    by_cases hb : isBlank a ∨ isBlank b
    · simp [hb] at h
    · simp only [hb, if_false, if_neg] at h
      have hab := Except.ok.inj h
      injection hab with h₁ h₂
      unfold join_key
      rw [← h₁, ← h₂]
      exact splitColon_eq_append key a b hsc

theorem sandbox_new_key (registry : List (List Char)) (key : List Char)
    (sb : SandboxInst) (h : sandbox_new registry key = .ok sb) :
    sandbox_key sb = key := by
  unfold sandbox_new at h
  cases hc : check_key key with
  | error e => rw [hc] at h; exact absurd h (by simp)
  | ok b =>
    rw [hc] at h
    cases hs : split_key key with
    | error e => rw [hs] at h; exact absurd h (by simp)
    | ok p =>
      obtain ⟨t, n⟩ := p
      rw [hs] at h
      by_cases ht : t ∈ registry
      · simp only [ht, if_true, if_pos] at h
        have hsb : sb = ⟨t, n⟩ := (Except.ok.inj h).symm
        rw [hsb]
        exact (split_key_ok_eq key t n hs).symm
      · simp [ht] at h

/-- C9: a task whose process is already inside an active sandbox matching
its designation resolves to direct execution: the effective sandbox is the
ambient key, and neither a nested `Sandbox` instance nor a `SandboxProxy`
is retained on the task. -/
theorem active_sandbox_resolves_direct (amb : AmbientState)
    (cfg : TaskSandboxSpec) (registry : List (List Char))
    (k : List Char) (rest : List (List Char)) (sb : SandboxInst)
    (hsw : amb.sandboxSwitched = true)
    (hcur : amb.currentSandbox = k :: rest)
    (hk : k ≠ NO_STR)
    (hnew : sandbox_new registry k = .ok sb) :
    initialize_sandbox amb cfg registry = .ok ⟨k, none, none⟩ := by
  have hkey : sandbox_key sb = k := sandbox_new_key registry k sb hnew
  unfold initialize_sandbox resolve_effective_sandbox
  simp [hsw, hcur, hk, hnew, is_active, hkey]

/-- Witness for C9: a `docker` backend is registered, the process is
switched into the active sandbox `"docker::img"`, and initialization
resolves to direct execution with no instance and no proxy. -/
theorem active_sandbox_resolves_direct_witness :
    sandbox_new ["docker".toList] "docker::img".toList =
      .ok ⟨"docker".toList, "img".toList⟩ ∧
    initialize_sandbox ⟨["docker::img".toList], true⟩
        ⟨[], false, [], false, fun _ => none⟩ ["docker".toList] =
      .ok ⟨"docker::img".toList, none, none⟩ :=
  ⟨by decide,
    active_sandbox_resolves_direct ⟨["docker::img".toList], true⟩
      ⟨[], false, [], false, fun _ => none⟩ ["docker".toList]
      "docker::img".toList [] ⟨"docker".toList, "img".toList⟩
      rfl rfl (by decide) (by decide)⟩

theorem initialize_sandbox_state_shape (amb : AmbientState)
    (cfg : TaskSandboxSpec) (registry : List (List Char)) (st : SandboxState)
    (h : initialize_sandbox amb cfg registry = .ok st) :
    (st.sandboxInst = none ∧ st.sandboxProxy = none) ∨
    (st.effectiveSandbox ≠ NO_STR ∧ st.sandboxProxy = some () ∧
      ∃ sb, st.sandboxInst = some sb) := by
  unfold initialize_sandbox at h
  cases heff : resolve_effective_sandbox amb cfg with
  | none =>
    rw [heff] at h
    by_cases ha : cfg.allowEmptySandbox
    · simp only [ha, if_true, if_pos] at h
      cases Except.ok.inj h
      exact Or.inl ⟨rfl, rfl⟩
    · simp [ha] at h
  | some key =>
    rw [heff] at h
    simp only [] at h
    by_cases hk : key = NO_STR
    · rw [if_pos hk] at h
      by_cases ha : cfg.allowEmptySandbox
      · simp only [ha, if_true, if_pos] at h
        cases Except.ok.inj h
        exact Or.inl ⟨rfl, rfl⟩
      · simp [ha] at h
    · rw [if_neg hk] at h
      cases hnew : sandbox_new registry key with
      | error e => rw [hnew] at h; exact absurd h (by simp)
      | ok sb =>
        rw [hnew] at h
        simp only [] at h
        by_cases hact : is_active amb.currentSandbox sb
        · rw [if_pos hact] at h
          cases Except.ok.inj h
          exact Or.inl ⟨rfl, rfl⟩
        · rw [if_neg hact] at h
          cases Except.ok.inj h
          exact Or.inr ⟨hk, rfl, sb, rfl⟩

/-- C10: after initialization, `is_sandboxed()` is `True` exactly in the
direct-execution case — when no `SandboxProxy` wraps the task — and
`False` exactly when one does (the opposite of what the name suggests);
correspondingly `SandboxTask.env` is the ambient process environment when
`is_sandboxed()` is `True` and the held instance's cached sandbox
environment otherwise. -/
theorem is_sandboxed_true_iff_direct (amb : AmbientState)
    (cfg : TaskSandboxSpec) (registry : List (List Char)) (st : SandboxState)
    (h : initialize_sandbox amb cfg registry = .ok st) :
    (is_sandboxed st = true ↔ st.sandboxProxy = none) ∧
    (∀ (ambientEnv : EnvMap) (instEnv : SandboxInst → EnvMap),
      (st.sandboxProxy = none → task_env st ambientEnv instEnv = ambientEnv) ∧
      (∀ sb, st.sandboxInst = some sb → st.sandboxProxy ≠ none →
        task_env st ambientEnv instEnv = instEnv sb)) := by
  rcases initialize_sandbox_state_shape amb cfg registry st h with
    ⟨hi, hp⟩ | ⟨he, hp, sb, hi⟩
  · refine ⟨by simp [is_sandboxed, hi, hp], fun a f => ⟨fun _ => ?_, fun sb' hsb' _ => ?_⟩⟩
    · simp [task_env, is_sandboxed, hi]
    · rw [hi] at hsb'
      exact absurd hsb' (by simp)
  · refine ⟨by simp [is_sandboxed, he, hi, hp], fun a f => ⟨fun hpn => ?_, fun sb' hsb' _ => ?_⟩⟩
    · rw [hp] at hpn
      exact absurd hpn (by simp)
    · rw [hi] at hsb'
      cases Option.some.inj hsb'
      simp [task_env, is_sandboxed, he, hi]

/-- Witness for C10: a task initialized into the sandboxed state (instance
and proxy present) has `is_sandboxed() = False` and reads the sandbox's
environment, not the ambient one. -/
theorem is_sandboxed_true_iff_direct_witness :
    (is_sandboxed ⟨"docker::img".toList, some ⟨"docker".toList, "img".toList⟩,
        some ()⟩ = true ↔
      (⟨"docker::img".toList, some ⟨"docker".toList, "img".toList⟩, some ()⟩ :
        SandboxState).sandboxProxy = none) ∧
    task_env ⟨"docker::img".toList, some ⟨"docker".toList, "img".toList⟩, some ()⟩
      [("HOME", "/root")] (fun _ => [("PATH", "/sandbox")]) = [("PATH", "/sandbox")] := by
  have h := is_sandboxed_true_iff_direct ⟨[[]], false⟩
    ⟨"docker::img".toList, false, [], false, fun _ => none⟩ ["docker".toList]
    ⟨"docker::img".toList, some ⟨"docker".toList, "img".toList⟩, some ()⟩ (by decide)
  exact ⟨h.1, (h.2 [("HOME", "/root")] (fun _ => [("PATH", "/sandbox")])).2
    ⟨"docker".toList, "img".toList⟩ rfl (by simp)⟩

end LawSandbox
